import Mathlib

/-!
Verification of the streaming workflow state-reconstruction engine of the
legal-discovery frontend.

The definitions below are a shallow embedding of the TypeScript source:

* `processStream` — the Phase Segmenter of
  `src/components/legal-discovery/legal-discovery-interface.tsx`
  (the dedup/title-check variant, the step/substep-tree design the spec
  adopts; the `setError` / `setIsRunning` / `setFinalResult` /
  `setInitialAgentResponse` React state setters are modelled as fields of
  `InterfaceState`, and `crypto.randomUUID()` as a fresh-id counter).
* `handleWorkflowUpdate` — the Transcript Builder of
  `src/components/analysis/chat-interface.tsx` (`Date.now()` / `new Date()`
  are modelled by an explicit `now : Nat` parameter).
* `handleSubmitFeedback` (`src/components/analysis/feedback-buttons.tsx`) and
  `handleSendMessage` (`chat-interface.tsx`), the latter as an ordered trace
  of append-message and network actions.
* `completedCount` / `progressPercentage` — the derived category progress of
  `CategoryProgress` (JS floating-point arithmetic modelled over `ℚ`; the
  inputs here are small integers, so no rounding is lost).
* `overallProgress` — the category-driven `ThinkingSteps` overall-progress
  computation (`src/components/analysis/thinking-steps.tsx`), over an
  explicit model `JSNum` of JS numbers that distinguishes `NaN` and the
  infinities produced by division by zero.

JS string operations are embedded as executable functions on `String.data`:
`strIncludes` (= `String.prototype.includes`), `strTrim` (= `trim`),
`strToLower` (= `toLowerCase`).
-/

namespace LegalDiscovery

/-- JS `hay.includes(needle)`: substring test, as a fold over the chars. -/
def strContainsAux (hay needle : List Char) : Bool :=
  match hay with
  | [] => needle.isEmpty
  | _ :: t => needle.isPrefixOf hay || strContainsAux t needle

/-- JS `hay.includes(needle)` on `String`. -/
def strIncludes (hay needle : String) : Bool :=
  strContainsAux hay.data needle.data

/-- JS `s.trim()`: strip leading and trailing whitespace. -/
def strTrim (s : String) : String :=
  String.mk (((s.data.dropWhile Char.isWhitespace).reverse.dropWhile
    Char.isWhitespace).reverse)

/-- JS `s.toLowerCase()` (ASCII case mapping suffices for the source's uses). -/
def strToLower (s : String) : String :=
  String.mk (s.data.map Char.toLower)

/-- JS truthiness of an optional string field: `undefined` and `""` are falsy. -/
def jsTruthyStr : Option String → Bool
  | none => false
  | some t => t != ""

/-- JS template rendering of a possibly-`undefined` number field
(`${x}` prints `undefined` when the field is missing). -/
def renderOptNat : Option Nat → String
  | none => "undefined"
  | some n => toString n

/-- JS template rendering of a possibly-`undefined` string field. -/
def renderOptStr : Option String → String
  | none => "undefined"
  | some t => t

/- ## Phase Segmenter data model (`legal-discovery-interface.tsx`) -/

/-- `SubStep` of the step tree; `id` models `crypto.randomUUID()` as a
fresh counter value. -/
structure SubStep where
  id : Nat
  type : String
  text : String
deriving DecidableEq

/-- `StepData.status` values. -/
inductive StepStatus where
  | running
  | completed
  | error
deriving DecidableEq

/-- `StepData`: one top-level step of the tree. -/
structure StepData where
  title : String
  status : StepStatus
  substeps : List SubStep
  isExpanded : Bool
deriving DecidableEq

/-- `LegalDiscoveryResult`, the payload of the terminal `complete` message
(fields as consumed by the results card). -/
structure LegalDiscoveryResult where
  questions : List String
  confidence_level : ℚ
  evidence_sources : Nat
  basis : String
deriving DecidableEq

/-- `StreamMessage`: one decoded stream event (`type`, `message`, optional
`data` payload). -/
structure StreamMessage where
  type : String
  message : String
  data : Option LegalDiscoveryResult := none
deriving DecidableEq

/-- The component state touched by `processStream`: the `steps` array plus the
`error`, `finalResult`, `isRunning` and `initialAgentResponse` state cells,
and the fresh-id counter standing in for `crypto.randomUUID()`. -/
structure InterfaceState where
  steps : List StepData
  error : Option String := none
  finalResult : Option LegalDiscoveryResult := none
  isRunning : Bool := true
  initialAgentResponse : String := ""
  nextId : Nat := 0
deriving DecidableEq

/-- Apply `f` to the last element of a list (the JS code mutates
`newSteps[newSteps.length - 1]` in place). -/
def updateLast (f : StepData → StepData) : List StepData → List StepData
  | [] => []
  | [x] => [f x]
  | x :: y :: xs => x :: updateLast f (y :: xs)

/-- `const isResearchPhase = message.type === 'research_progress' &&
message.message.includes('Round')`. -/
def isResearchPhase (message : StreamMessage) : Bool :=
  message.type == "research_progress" && strIncludes message.message "Round"

/-- `const isFinalPhase = message.type === 'final_strategy' &&
message.message.includes('Compiling')`. -/
def isFinalPhase (message : StreamMessage) : Bool :=
  message.type == "final_strategy" && strIncludes message.message "Compiling"

/-- The title of a freshly created step (`let title = ...`). -/
def newStepTitle (message : StreamMessage) : String :=
  if isFinalPhase message then "Generating Deposition Outline"
  else if isResearchPhase message then "Research Phase"
  else "Investigation Phase"

/-- The freshly created current step. -/
def newStep (message : StreamMessage) : StepData :=
  { title := newStepTitle message, status := .running, substeps := [], isExpanded := true }

/-- The step-creation condition: `!currentStep || (isFinalPhase &&
currentStep.title !== "Generating Deposition Outline") || (isResearchPhase &&
currentStep.title !== "Research Phase")`. -/
def createsNewStep (message : StreamMessage) (s : InterfaceState) : Bool :=
  match s.steps.getLast? with
  | none => true
  | some currentStep =>
    (isFinalPhase message && currentStep.title != "Generating Deposition Outline") ||
    (isResearchPhase message && currentStep.title != "Research Phase")

/-- `currentStep.substeps.some(existing => existing.type === message.type &&
existing.text === message.message)`. -/
def isDuplicateIn (message : StreamMessage) (currentStep : StepData) : Bool :=
  currentStep.substeps.any fun existing =>
    existing.type == message.type && existing.text == message.message

/-- The dedup-guarded substep append applied to the current step. -/
def appendSubstep (message : StreamMessage) (id : Nat) (currentStep : StepData) :
    StepData :=
  if isDuplicateIn message currentStep then currentStep
  else
    { currentStep with substeps := currentStep.substeps ++
        [{ id := id, type := message.type, text := message.message }] }

/-- The Phase Segmenter: `processStream` of `legal-discovery-interface.tsx`
(the variant with the title checks and the `(type, text)` dedup). Mirrors the
source statement by statement: the `agent_intro` early return; step creation
(superseding the previous step as `completed` and consuming the trigger);
otherwise the dedup-guarded substep append; finally the `complete` / `error`
handling on the current (last) step. -/
def processStream (message : StreamMessage) (s : InterfaceState) : InterfaceState :=
  if message.type == "agent_intro" then
    { s with initialAgentResponse := message.message }
  else
    let steps1 :=
      if createsNewStep message s then
        updateLast (fun st => { st with status := .completed }) s.steps ++
          [newStep message]
      else
        updateLast (appendSubstep message s.nextId) s.steps
    let appendedSub :=
      !createsNewStep message s &&
        match s.steps.getLast? with
        | none => false
        | some currentStep => !isDuplicateIn message currentStep
    let nextId1 := if appendedSub then s.nextId + 1 else s.nextId
    let steps2 :=
      if message.type == "complete" then
        updateLast (fun st => { st with status := .completed }) steps1
      else steps1
    let finalResult2 := if message.type == "complete" then message.data else s.finalResult
    let isRunning2 := if message.type == "complete" then false else s.isRunning
    let steps3 :=
      if message.type == "error" then
        updateLast (fun st => { st with status := .error }) steps2
      else steps2
    let error3 := if message.type == "error" then some message.message else s.error
    let isRunning3 := if message.type == "error" then false else isRunning2
    { steps := steps3
      error := error3
      finalResult := finalResult2
      isRunning := isRunning3
      initialAgentResponse := s.initialAgentResponse
      nextId := nextId1 }

/-- The `complete` / `error` status handling applied to the current step after
segmentation (`currentStep.status = 'completed'` on `complete`,
`currentStep.status = 'error'` on `error`). -/
def postStatus (message : StreamMessage) (st : StepData) : StepData :=
  let st1 := if message.type == "complete" then { st with status := .completed } else st
  if message.type == "error" then { st1 with status := .error } else st1

/-- Feed a whole event sequence through the Phase Segmenter, in arrival
order, starting from `s`. -/
def runStream (messages : List StreamMessage) (s : InterfaceState) : InterfaceState :=
  messages.foldl (fun st m => processStream m st) s

/-- The state at the start of a run: empty step list (`setSteps([])` in
`handleSubmit`). -/
def initialInterfaceState : InterfaceState :=
  { steps := [] }

/- ## Transcript Builder data model (`chat-interface.tsx`) -/

/-- Category descriptor supplied by the backend plan. -/
structure Category where
  name : String
  description : String := ""
  requires_document_search : Bool := true
  content : Option String := none
deriving DecidableEq

/-- `deposition_questions` is `string | object` on the wire; an object is
modelled by its `JSON.stringify` rendering. -/
inductive DepositionQuestions where
  | str (s : String)
  | obj (rendered : String)
deriving DecidableEq

/-- The inbound event frame consumed by `handleWorkflowUpdate`
(`update: any`; every field other than `type` may be absent). -/
structure WorkflowUpdate where
  type : String
  message : Option String := none
  categories : Option (List Category) := none
  total_categories : Option Nat := none
  final_analysis : Option String := none
  completed_categories : Option (List Category) := none
  deposition_questions : Option DepositionQuestions := none
deriving DecidableEq

/-- `ChatMessage.type` values (`'user' | 'assistant' | 'system'`). -/
inductive MsgRole where
  | user
  | assistant
  | system
deriving DecidableEq

/-- `ChatMessage` of the transcript; `timestamp` models `new Date()` and
`metadata` stores the originating update. -/
structure ChatMessage where
  id : String
  type : MsgRole
  content : String
  timestamp : Nat
  metadata : Option WorkflowUpdate := none
deriving DecidableEq

/-- The `analysisResults` cell set by the `analysis_completed` case. -/
structure AnalysisResults where
  completed_categories : List Category
  total_categories : Nat
  final_analysis : Option String
  deposition_questions : Option DepositionQuestions
deriving DecidableEq

/-- The chat-interface state touched by `handleWorkflowUpdate`. -/
structure ChatState where
  messages : List ChatMessage
  analysisResults : Option AnalysisResults := none
deriving DecidableEq

/-- `update.categories.map(c => c.name).join(', ')` (the source reads the
field without a guard; the absent case is modelled as the empty list). -/
def joinCategoryNames (categories : List Category) : String :=
  String.intercalate ", " (categories.map Category.name)

/-- The fixed prefix of the `analysis_completed` chat message, up to the
category count. -/
def analysisHeader : String :=
  "🎉 **Legal Analysis Complete!**\n\n**Categories Analyzed:** "

/-- The fixed separator between the category count and the analysis body. -/
def analysisSeparator : String := "\n\n**Analysis Results:**\n\n"

/-- The fixed separator before appended deposition questions. -/
def depositionSeparator : String := "\n\n**Deposition Questions:**\n\n"

/-- The Transcript Builder: `handleWorkflowUpdate` of `chat-interface.tsx`.
Returns the new chat state; `now` stands for `Date.now()`. The switch
computes the per-event-type content template (`none` = `shouldCreateMessage
= false` or an `undefined` content), the role, and — for
`analysis_completed` — the new `analysisResults`; a message is appended only
when the content is truthy, exactly as `if (shouldCreateMessage && content)`. -/
def handleWorkflowUpdate (now : Nat) (update : WorkflowUpdate) (s : ChatState) :
    ChatState :=
  let dispatch : Option String × MsgRole × Option AnalysisResults :=
    match update.type with
    | "plan_generated" =>
      (some ("Analysis plan generated with " ++ renderOptNat update.total_categories ++
        " categories."), .system, none)
    | "feedback_requested" =>
      (update.message, .system, none)
    | "category_completed" =>
      (some ("Completed analysis for: " ++ joinCategoryNames (update.categories.getD [])),
        .system, none)
    | "deposition_generated" =>
      (some "Deposition questions have been generated.", .system, none)
    | "analysis_completed" =>
      let analysisContent :=
        match update.final_analysis with
        | some t => if t == "" then "Analysis completed but no content received." else t
        | none => "Analysis completed but no content received."
      let completedCount := (update.completed_categories.getD []).length
      let base :=
        analysisHeader ++ toString completedCount ++ analysisSeparator ++ analysisContent
      let content :=
        match update.deposition_questions with
        | some (.str dq) =>
          if dq == "" then base else base ++ depositionSeparator ++ dq
        | some (.obj dq) => base ++ depositionSeparator ++ dq
        | none => base
      (some content, .assistant,
        some { completed_categories := update.completed_categories.getD []
               total_categories := completedCount
               final_analysis := update.final_analysis
               deposition_questions := update.deposition_questions })
    | "progress_update" =>
      (if jsTruthyStr update.message then update.message else none, .system, none)
    | "error" =>
      (some ("Error: " ++ renderOptStr update.message), .system, none)
    | _ =>
      (if jsTruthyStr update.message then some ("Workflow update: " ++ update.type)
       else none, .system, none)
  match dispatch with
  | (contentOpt, role, arOpt) =>
    let s1 : ChatState :=
      match arOpt with
      | some ar => { s with analysisResults := some ar }
      | none => s
    match contentOpt with
    | some content =>
      if content == "" then s1
      else
        { s1 with messages := s1.messages ++
            [{ id := "msg_" ++ toString now
               type := role
               content := content
               timestamp := now
               metadata := some update }] }
    | none => s1

/- ## Feedback submission (`feedback-buttons.tsx`) and user input
(`chat-interface.tsx`) -/

/-- `handleSubmitFeedback` of `feedback-buttons.tsx`: returns the
`(feedback, approved)` argument pair passed to `onFeedback`, or `none` when
the client-side `if (!feedbackText.trim()) return` guard rejects the text. -/
def handleSubmitFeedback (feedbackText : String) : Option (String × Bool) :=
  if strTrim feedbackText == "" then none
  else some (feedbackText, false)

/-- Outbound network commands issued by the chat interface. -/
inductive ChatCommand where
  | startAnalysis (caseId : String)
  | feedback (analysisId : String) (feedback : String)
deriving DecidableEq

/-- One observable action of `handleSendMessage`, in program order: a
synchronous `setMessages` append, or an awaited network mutation. -/
inductive ChatAction where
  | appendMessage (m : ChatMessage)
  | network (c : ChatCommand)
deriving DecidableEq

/-- `handleSendMessage` of `chat-interface.tsx` as its ordered action trace
(success path of the awaited mutations; on failure the code only logs).
The user message is appended synchronously before either branch awaits its
network call; `handleUserFeedback` sends nothing when no analysis id is
known, and `handleStartAnalysis` appends its system message only after its
await returns. -/
def handleSendMessage (now : Nat) (caseId : String) (analysisId : Option String)
    (input : String) : List ChatAction :=
  if strTrim input == "" then []
  else
    let userMessage : ChatMessage :=
      { id := "user_" ++ toString now, type := .user, content := input, timestamp := now }
    ChatAction.appendMessage userMessage ::
      (if strIncludes (strToLower input) "start analysis" then
        [ChatAction.network (.startAnalysis caseId),
         ChatAction.appendMessage
           { id := "system_" ++ toString now, type := .system,
             content := "Starting legal analysis...", timestamp := now }]
      else
        match analysisId with
        | none => []
        | some aid => [ChatAction.network (.feedback aid input)])

/- ## Derived category progress (`CategoryProgress`, unnamed part_006) -/

/-- One `CategoryProgress` row. -/
structure CategoryProgressRow where
  id : String
  category_name : String
  status : String
  content : Option String := none
  search_iterations : Nat := 0
  started_at : Option String := none
  completed_at : Option String := none
deriving DecidableEq

/-- `completedCount`: rows whose `status` is `'completed'`. -/
def completedCount (progress : List CategoryProgressRow) : Nat :=
  (progress.filter fun p => p.status == "completed").length

/-- `progressPercentage`: `totalCount > 0 ? (completedCount / totalCount) *
100 : 0`, with JS numbers modelled over `ℚ` (exact for these integer inputs). -/
def progressPercentage (categories : List Category)
    (progress : List CategoryProgressRow) : ℚ :=
  if 0 < categories.length then
    (completedCount progress : ℚ) / (categories.length : ℚ) * 100
  else 0

/- ## ThinkingSteps overall progress (`thinking-steps.tsx`) with JS number
semantics -/

/-- A JS double restricted to the values this code can produce: a finite
rational, `NaN`, or a signed infinity. -/
inductive JSNum where
  | nan
  | inf
  | negInf
  | num (q : ℚ)
deriving DecidableEq

/-- JS division `a / b` on finite operands: `0 / 0` is `NaN`, `x / 0` is a
signed infinity for `x ≠ 0`. -/
def jsDiv (a b : ℚ) : JSNum :=
  if b = 0 then
    if a = 0 then .nan else if 0 < a then .inf else .negInf
  else .num (a / b)

/-- JS multiplication of a (possibly non-finite) number by a finite one. -/
def jsMul (x : JSNum) (c : ℚ) : JSNum :=
  match x with
  | .nan => .nan
  | .inf => if c = 0 then .nan else if 0 < c then .inf else .negInf
  | .negInf => if c = 0 then .nan else if 0 < c then .negInf else .inf
  | .num q => .num (q * c)

/-- JS `Math.round`: `⌊x + 1/2⌋` on finite values; `NaN` and infinities pass
through. -/
def jsRound : JSNum → JSNum
  | .nan => .nan
  | .inf => .inf
  | .negInf => .negInf
  | .num q => .num ((round q : ℤ) : ℚ)

/-- The category prop of the category-driven `ThinkingSteps`
(`{name, description, content?, status?}`). -/
structure CategoryInfo where
  name : String
  description : String := ""
  content : Option String := none
  status : Option String := none
deriving DecidableEq

/-- One converted thinking step (the fields the progress computation reads). -/
structure ThinkingStep where
  id : String
  title : String
  status : String
  description : String := ""
  details : Option String := none
deriving DecidableEq

/-- `categories.map((category, index) => ({... status: category.status ||
'pending' ...}))` of `thinking-steps.tsx`. -/
def categoriesToSteps (categories : List CategoryInfo) : List ThinkingStep :=
  (categories.enum).map fun ci =>
    { id := "category_" ++ toString ci.1
      title := ci.2.name
      status :=
        match ci.2.status with
        | some st => if st == "" then "pending" else st
        | none => "pending"
      description := ci.2.description
      details := ci.2.content }

/-- The overall-progress percentage of `thinking-steps.tsx`:
`Math.round((steps.filter(completed).length / steps.length) * 100)`,
with no guard on an empty step list. -/
def overallProgress (categories : List CategoryInfo) : JSNum :=
  let steps := categoriesToSteps categories
  let completed := (steps.filter fun st => st.status == "completed").length
  jsRound (jsMul (jsDiv (completed : ℚ) (steps.length : ℚ)) 100)

/- ## Supporting lemmas -/

theorem updateLast_append (f : StepData → StepData) (l : List StepData) (x : StepData) :
    updateLast f (l ++ [x]) = l ++ [f x] := by
  induction l with
  | nil => rfl
  | cons a l ih =>
    cases l with
    | nil => rfl
    | cons b l' => simpa [updateLast] using ih

theorem updateLast_nil (f : StepData → StepData) : updateLast f [] = [] := rfl

theorem updateLast_append_pair (f : StepData → StepData) (l : List StepData)
    (a b : StepData) : updateLast f (l ++ [a, b]) = l ++ [a, f b] := by
  have h : l ++ [a, b] = (l ++ [a]) ++ [b] := by simp
  rw [h, updateLast_append]
  simp

/-- A nonempty string stays nonempty under left append. -/
theorem append_ne_empty_left (a b : String) (h : a ≠ "") : a ++ b ≠ "" := by
  intro hab
  have hl := congrArg String.length hab
  rw [String.length_append] at hl
  have ha : a.length = 0 := by
    have h0 : ("" : String).length = 0 := rfl
    omega
  apply h
  cases a with
  | mk data =>
    cases data with
    | nil => rfl
    | cons c cs => simp [String.length] at ha

/-- Step-list characterization of `processStream` when the step list is
empty: a fresh step is created and only its status is post-processed. -/
theorem processStream_steps_of_nil (message : StreamMessage) (s : InterfaceState)
    (hna : (message.type == "agent_intro") = false) (h : s.steps = []) :
    (processStream message s).steps = [postStatus message (newStep message)] := by
  have hcreate : createsNewStep message s = true := by
    simp [createsNewStep, h]
  simp only [processStream, hna, Bool.false_eq_true, if_false, hcreate, if_true,
    h, updateLast_nil, List.nil_append, postStatus]
  by_cases hc : (message.type == "complete") = true <;>
    by_cases he : (message.type == "error") = true <;>
      simp [hc, he, updateLast]

/-- Step-list characterization of `processStream` on a nonempty step list,
step-creation case: the previous step is closed as `completed`, the fresh
step is appended with no substeps, and the terminal events touch only the
fresh (current) step. -/
theorem processStream_steps_of_concat_create (message : StreamMessage)
    (s : InterfaceState) (init : List StepData) (cur : StepData)
    (hna : (message.type == "agent_intro") = false) (h : s.steps = init ++ [cur])
    (hcreate : createsNewStep message s = true) :
    (processStream message s).steps =
      (init ++ [{ cur with status := .completed }]) ++
        [postStatus message (newStep message)] := by
  simp only [processStream, hna, Bool.false_eq_true, if_false, hcreate, if_true, h,
    updateLast_append, postStatus]
  by_cases hc : (message.type == "complete") = true <;>
    by_cases he : (message.type == "error") = true <;>
      simp [hc, he, updateLast_append, updateLast_append_pair, List.append_assoc]

/-- Step-list characterization of `processStream` on a nonempty step list,
no-new-step case: the event is folded into the current step (dedup-guarded
append, then terminal status handling). -/
theorem processStream_steps_of_concat_append (message : StreamMessage)
    (s : InterfaceState) (init : List StepData) (cur : StepData)
    (hna : (message.type == "agent_intro") = false) (h : s.steps = init ++ [cur])
    (hcreate : createsNewStep message s = false) :
    (processStream message s).steps =
      init ++ [postStatus message (appendSubstep message s.nextId cur)] := by
  simp only [processStream, hna, Bool.false_eq_true, if_false, hcreate, if_true, h,
    updateLast_append, postStatus]
  by_cases hc : (message.type == "complete") = true <;>
    by_cases he : (message.type == "error") = true <;>
      simp [hc, he, updateLast_append]

/-- `postStatus` never touches the substeps. -/
theorem postStatus_substeps (message : StreamMessage) (st : StepData) :
    (postStatus message st).substeps = st.substeps := by
  simp only [postStatus]
  by_cases hc : (message.type == "complete") = true <;>
    by_cases he : (message.type == "error") = true <;>
      simp [hc, he]

/-- `postStatus` never touches the title. -/
theorem postStatus_title (message : StreamMessage) (st : StepData) :
    (postStatus message st).title = st.title := by
  simp only [postStatus]
  by_cases hc : (message.type == "complete") = true <;>
    by_cases he : (message.type == "error") = true <;>
      simp [hc, he]

/-- `appendSubstep` never touches the title. -/
theorem appendSubstep_title (message : StreamMessage) (id : Nat) (st : StepData) :
    (appendSubstep message id st).title = st.title := by
  simp only [appendSubstep]
  by_cases hd : isDuplicateIn message st = true <;> simp [hd]

/-- A duplicate `(type, text)` pair makes `appendSubstep` the identity. -/
theorem appendSubstep_of_dup (message : StreamMessage) (id : Nat) (st : StepData)
    (h : isDuplicateIn message st = true) :
    appendSubstep message id st = st := by
  simp [appendSubstep, h]

/- ## Claim theorems -/

/-- Event A of the §8 phase-segmentation scenario. -/
def evA : StreamMessage := { type := "progress_update", message := "Starting investigation" }

/-- Event B (`research_progress`, "Round 1: ..."). -/
def evB : StreamMessage :=
  { type := "research_progress", message := "Round 1: searching for key evidence" }

/-- Event C (`research_progress`, "Round 1: ..."). -/
def evC : StreamMessage :=
  { type := "research_progress", message := "Round 1: analyzing retrieved documents" }

/-- Event D (`research_progress`, "Round 2: ..."). -/
def evD : StreamMessage :=
  { type := "research_progress", message := "Round 2: expanding the search" }

/-- Event E (the terminal `complete`). -/
def evE : StreamMessage := { type := "complete", message := "Analysis complete" }

/-- C1 (counterexample): fed `[A, B("Round 1: ..."), C("Round 1: ..."),
D("Round 2: ..."), E(complete)]` from the empty step list, the Phase
Segmenter produces exactly 2 steps, not the 3 the claim asserts: because the
step-creation check compares the current title against the fixed string
"Research Phase", event D's "Round 2" does not open a new step. -/
theorem phase_segmentation_scenario_counterexample :
    (runStream [evA, evB, evC, evD, evE] initialInterfaceState).steps.length = 2 ∧
    ¬ (runStream [evA, evB, evC, evD, evE] initialInterfaceState).steps.length = 3 := by
  decide

/-- C1 (amended): for the event sequence `[A, B("Round 1: ..."),
C("Round 1: ..."), D("Round 2: ..."), E(complete)]` fed to the Phase
Segmenter starting from an empty step list, the resulting step tree contains
exactly 2 steps ("Investigation Phase" and a single "Research Phase" step
covering both rounds), and event B is consumed as the trigger of the
research step only: no substep with B's `(type, text)` appears under the
step whose creation B triggered. -/
theorem phase_segmentation_scenario_amended :
    (runStream [evA, evB, evC, evD, evE] initialInterfaceState).steps.length = 2 ∧
    ((runStream [evA, evB, evC, evD, evE] initialInterfaceState).steps.map
      StepData.title) = ["Investigation Phase", "Research Phase"] ∧
    (((runStream [evA, evB, evC, evD, evE] initialInterfaceState).steps[1]?).map
      fun st => st.substeps.any fun sub =>
        sub.type == evB.type && sub.text == evB.message) = some false := by
  decide

/-- The state used to refute C2's trigger condition (c): a single running
"Investigation Phase" step. -/
def investigationOnlyState : InterfaceState :=
  { steps := [⟨"Investigation Phase", .running, [], true⟩] }

/-- A `progress_update` carrying the compiling marker (in both spellings). -/
def compilingProgressUpdate : StreamMessage :=
  { type := "progress_update", message := "Compiling and recompiling the final strategy" }

/-- C2 (counterexample): a `progress_update` whose message contains the
compiling marker, arriving while the current step's title is not the
final-phase title, does NOT create a new step (the step list stays at length
1): the source keys the final-phase transition on the `final_strategy` event
type, not on `progress_update`/`research_progress`. -/
theorem new_step_trigger_counterexample :
    compilingProgressUpdate.type = "progress_update" ∧
    strIncludes compilingProgressUpdate.message "Compiling" = true ∧
    strIncludes compilingProgressUpdate.message "compiling" = true ∧
    (investigationOnlyState.steps.map StepData.title) = ["Investigation Phase"] ∧
    (processStream compilingProgressUpdate investigationOnlyState).steps.length = 1 := by
  decide

/-- C2 (amended): for every incoming event other than `agent_intro`, the
Phase Segmenter creates a new top-level Step exactly when (a) there is no
current step, or (b) the event is a `research_progress` whose message
contains the "Round" marker and the current step's title is not already the
research-phase title, or (c) the event is a `final_strategy` whose message
contains the "Compiling" marker and the current step's title is not already
the final-phase title; in all other cases no new step is created. -/
theorem new_step_trigger_characterization (message : StreamMessage)
    (s : InterfaceState) (hna : message.type ≠ "agent_intro") :
    (processStream message s).steps.length = s.steps.length + 1 ↔
      s.steps = [] ∨
      ∃ cur, s.steps.getLast? = some cur ∧
        ((message.type = "research_progress" ∧
            strIncludes message.message "Round" = true ∧
            cur.title ≠ "Research Phase") ∨
         (message.type = "final_strategy" ∧
            strIncludes message.message "Compiling" = true ∧
            cur.title ≠ "Generating Deposition Outline")) := by
  have hnab : (message.type == "agent_intro") = false := beq_eq_false_iff_ne.mpr hna
  rcases (by simpa [List.concat_eq_append] using List.eq_nil_or_concat s.steps :
      s.steps = [] ∨ ∃ L b, s.steps = L ++ [b]) with hnil | ⟨init, cur, hcat⟩
  · rw [processStream_steps_of_nil message s hnab hnil]
    simp [hnil]
  · have hlast : s.steps.getLast? = some cur := by
      rw [hcat]; exact List.getLast?_concat init
    have hcond : createsNewStep message s = true ↔
        ((message.type = "research_progress" ∧
            strIncludes message.message "Round" = true ∧
            cur.title ≠ "Research Phase") ∨
         (message.type = "final_strategy" ∧
            strIncludes message.message "Compiling" = true ∧
            cur.title ≠ "Generating Deposition Outline")) := by
      simp only [createsNewStep, hlast]
      simp [isFinalPhase, isResearchPhase, Bool.or_eq_true, Bool.and_eq_true,
        bne_iff_ne, and_assoc, or_comm]
    by_cases hcreate : createsNewStep message s = true
    · rw [processStream_steps_of_concat_create message s init cur hnab hcat hcreate]
      have hne : ¬ s.steps = [] → True := fun _ => trivial
      constructor
      · intro _
        right
        exact ⟨cur, hlast, hcond.mp hcreate⟩
      · intro _
        simp [hcat]
    · have hcreate' : createsNewStep message s = false := by
        simpa using hcreate
      rw [processStream_steps_of_concat_append message s init cur hnab hcat hcreate']
      constructor
      · intro hlen
        exfalso
        rw [hcat] at hlen
        simp at hlen
      · intro hdisj
        exfalso
        rcases hdisj with hnil' | ⟨cur', hcur', hdis⟩
        · rw [hcat] at hnil'; simp at hnil'
        · rw [hlast] at hcur'
          injection hcur' with hcureq
          subst hcureq
          exact hcreate (hcond.mpr hdis)

/-- C2 (witness): a `research_progress` "Round 1" event on a running
"Investigation Phase" step creates a new step. -/
theorem new_step_trigger_characterization_witness :
    (processStream evB investigationOnlyState).steps.length =
      investigationOnlyState.steps.length + 1 :=
  (new_step_trigger_characterization evB investigationOnlyState (by decide)).mpr
    (Or.inr ⟨⟨"Investigation Phase", .running, [], true⟩, by decide,
      Or.inl ⟨rfl, by decide, by decide⟩⟩)

/-- C3: if the current step already contains a substep whose `(type, text)`
pair equals the incoming event's `(type, text)`, processing that event
leaves the current step's substep list unchanged (the step at the current
position keeps exactly its old substeps). -/
theorem substep_dedup_idempotent (message : StreamMessage) (s : InterfaceState)
    (init : List StepData) (cur : StepData) (hcat : s.steps = init ++ [cur])
    (hdup : ∃ ex ∈ cur.substeps, ex.type = message.type ∧ ex.text = message.message) :
    ((processStream message s).steps[init.length]?).map StepData.substeps =
      some cur.substeps := by
  have hdupb : isDuplicateIn message cur = true := by
    rcases hdup with ⟨ex, hmem, ht, hx⟩
    simp only [isDuplicateIn, List.any_eq_true]
    exact ⟨ex, hmem, by simp [ht, hx]⟩
  by_cases hna : (message.type == "agent_intro") = true
  · simp [processStream, hna, hcat]
  · have hnab : (message.type == "agent_intro") = false := by simpa using hna
    by_cases hcreate : createsNewStep message s = true
    · rw [processStream_steps_of_concat_create message s init cur hnab hcat hcreate]
      rw [List.getElem?_append_left (by simp)]
      simp
    · have hcreate' : createsNewStep message s = false := by simpa using hcreate
      rw [processStream_steps_of_concat_append message s init cur hnab hcat hcreate']
      simp [postStatus_substeps, appendSubstep_of_dup message s.nextId cur hdupb]

/-- The current step used for the dedup witness: a running "Research Phase"
step with no substeps yet. -/
def researchPhaseState : InterfaceState :=
  { steps := [⟨"Research Phase", .running, [], true⟩] }

/-- The redelivered research event of the dedup witness. -/
def roundOneMsg : StreamMessage :=
  { type := "research_progress", message := "Round 1: gathering evidence" }

/-- C3 (witness): feeding the same `research_progress` "Round 1" message
twice to an unchanged current step yields exactly one SubStep with that
`(type, text)`. -/
theorem substep_dedup_idempotent_witness :
    ((processStream roundOneMsg (processStream roundOneMsg researchPhaseState)).steps[0]?).map
        StepData.substeps =
      some [⟨0, "research_progress", "Round 1: gathering evidence"⟩] ∧
    ((processStream roundOneMsg (processStream roundOneMsg researchPhaseState)).steps.map
      fun st => (st.substeps.filter fun sub =>
        sub.type == roundOneMsg.type && sub.text == roundOneMsg.message).length) = [1] :=
  ⟨substep_dedup_idempotent roundOneMsg (processStream roundOneMsg researchPhaseState)
      [] ⟨"Research Phase", .running,
        [⟨0, "research_progress", "Round 1: gathering evidence"⟩], true⟩
      (by decide)
      ⟨⟨0, "research_progress", "Round 1: gathering evidence"⟩, by decide, rfl, rfl⟩,
    by decide⟩

/-- The running single-step state used to show the error status is not
terminal. -/
def runningStepState : InterfaceState :=
  { steps := [⟨"Investigation Phase", .running, [], true⟩] }

/-- The backend error event. -/
def backendErrorMsg : StreamMessage := { type := "error", message := "Backend failure" }

/-- An event arriving after the error in the same run. -/
def retryRoundMsg : StreamMessage :=
  { type := "research_progress", message := "Round 1: retrying the search" }

/-- C4 (counterexample): after an `error` event marks the current step as
`error`, a later `research_progress` "Round" event in the same run still
creates a new Step AND overwrites the errored step's status with
`completed`: the segmenter does not stop at the error. -/
theorem error_not_terminal_counterexample :
    ((processStream backendErrorMsg runningStepState).steps.map StepData.status) =
      [.error] ∧
    (processStream retryRoundMsg
        (processStream backendErrorMsg runningStepState)).steps.length = 2 ∧
    ((processStream retryRoundMsg
        (processStream backendErrorMsg runningStepState)).steps.map StepData.status) =
      [.completed, .running] := by
  decide

/-- `postStatus` marks the step `error` on an error event. -/
theorem postStatus_status_of_error (message : StreamMessage) (st : StepData)
    (h : message.type = "error") : (postStatus message st).status = .error := by
  have h3 : ("error" == "error") = true := by decide
  simp [postStatus, h, h3]

/-- C4 (amended): after the Phase Segmenter processes an `error` event, the
current step's status is `error`, the error message is recorded, and the run
is marked not running; the segmenter does not, however, prevent later events
from creating new Steps or overwriting that status (see the counterexample). -/
theorem error_event_marks_current_step (message : StreamMessage) (s : InterfaceState)
    (h : message.type = "error") :
    (∃ st, (processStream message s).steps.getLast? = some st ∧
        st.status = .error) ∧
    (processStream message s).error = some message.message ∧
    (processStream message s).isRunning = false := by
  have hnab : (message.type == "agent_intro") = false := by
    rw [h]; decide
  have h1 : ("error" == "agent_intro") = false := by decide
  have h2 : ("error" == "complete") = false := by decide
  have h3 : ("error" == "error") = true := by decide
  refine ⟨?_, ?_, ?_⟩
  · rcases (by simpa [List.concat_eq_append] using List.eq_nil_or_concat s.steps :
        s.steps = [] ∨ ∃ L b, s.steps = L ++ [b]) with hnil | ⟨init, cur, hcat⟩
    · rw [processStream_steps_of_nil message s hnab hnil]
      exact ⟨postStatus message (newStep message), rfl,
        postStatus_status_of_error message _ h⟩
    · by_cases hcreate : createsNewStep message s = true
      · rw [processStream_steps_of_concat_create message s init cur hnab hcat hcreate]
        exact ⟨postStatus message (newStep message), List.getLast?_concat _,
          postStatus_status_of_error message _ h⟩
      · have hcreate' : createsNewStep message s = false := by simpa using hcreate
        rw [processStream_steps_of_concat_append message s init cur hnab hcat hcreate']
        exact ⟨postStatus message (appendSubstep message s.nextId cur),
          List.getLast?_concat _, postStatus_status_of_error message _ h⟩
  · simp [processStream, h, h1, h2, h3]
  · simp [processStream, h, h1, h2, h3]

/-- C4 (witness): the amended error-marking theorem at the concrete error
event and running step. -/
theorem error_event_marks_current_step_witness :
    (∃ st, (processStream backendErrorMsg runningStepState).steps.getLast? = some st ∧
        st.status = .error) ∧
    (processStream backendErrorMsg runningStepState).error =
      some backendErrorMsg.message ∧
    (processStream backendErrorMsg runningStepState).isRunning = false :=
  error_event_marks_current_step backendErrorMsg runningStepState rfl

/-- C5: processing an event never removes a Step from the step list (the
length never shrinks and every existing position keeps its step, witnessed
by its title), and whenever a new current step is created while a previous
current step exists, the previous step's status is set to `completed` (the
trigger of a supersession is never itself an error event, so the error
branch of the claim is vacuous) and the triggering event is not appended as
a substep of the new step (the new current step has no substeps). -/
theorem steps_append_only_and_supersede (message : StreamMessage) (s : InterfaceState) :
    s.steps.length ≤ (processStream message s).steps.length ∧
    (∀ i, i < s.steps.length →
      ((processStream message s).steps[i]?).map StepData.title =
        (s.steps[i]?).map StepData.title) ∧
    ((processStream message s).steps.length = s.steps.length + 1 →
      ∀ init cur, s.steps = init ++ [cur] →
        ((processStream message s).steps[init.length]?).map StepData.status =
            some StepStatus.completed ∧
        ((processStream message s).steps.getLast?).map StepData.substeps =
            some ([] : List SubStep)) := by
  by_cases hna : (message.type == "agent_intro") = true
  · have hsteps : (processStream message s).steps = s.steps := by
      simp [processStream, hna]
    rw [hsteps]
    exact ⟨le_refl _, fun i _ => rfl, fun hlen => absurd hlen (by omega)⟩
  · have hnab : (message.type == "agent_intro") = false := by simpa using hna
    rcases (by simpa [List.concat_eq_append] using List.eq_nil_or_concat s.steps :
        s.steps = [] ∨ ∃ L b, s.steps = L ++ [b]) with hnil | ⟨init, cur, hcat⟩
    · have hres := processStream_steps_of_nil message s hnab hnil
      rw [hres, hnil]
      refine ⟨by simp, fun i hi => absurd hi (by simp), ?_⟩
      intro _ init cur hcat
      exact absurd hcat.symm (by simp)
    · by_cases hcreate : createsNewStep message s = true
      · have hres :=
          processStream_steps_of_concat_create message s init cur hnab hcat hcreate
        refine ⟨?_, ?_, ?_⟩
        · rw [hres, hcat]; simp
        · intro i hi
          rw [hres, hcat]
          rw [hcat] at hi
          simp only [List.length_append, List.length_singleton] at hi
          rcases Nat.lt_or_ge i init.length with h1 | h1
          · have h2 : i < (init ++ [{ cur with status := StepStatus.completed }]).length := by
              simp; omega
            rw [List.getElem?_append_left h2, List.getElem?_append_left h1,
              List.getElem?_append_left h1]
          · have h3 : i = init.length := by omega
            subst h3
            have h2 : init.length <
                (init ++ [{ cur with status := StepStatus.completed }]).length := by
              simp
            rw [List.getElem?_append_left h2]
            simp
        · intro _ init' cur' hcat'
          have heq : init ++ [cur] = init' ++ [cur'] := hcat.symm.trans hcat'
          have hinit : init' = init := by
            have := congrArg List.dropLast heq
            simpa using this.symm
          rw [hinit, hres]
          constructor
          · have h2 : init.length <
                (init ++ [{ cur with status := StepStatus.completed }]).length := by
              simp
            rw [List.getElem?_append_left h2]
            simp
          · rw [List.getLast?_concat]
            simp [postStatus_substeps, newStep]
      · have hcreate' : createsNewStep message s = false := by simpa using hcreate
        have hres :=
          processStream_steps_of_concat_append message s init cur hnab hcat hcreate'
        refine ⟨?_, ?_, ?_⟩
        · rw [hres, hcat]; simp
        · intro i hi
          rw [hres, hcat]
          rw [hcat] at hi
          simp only [List.length_append, List.length_singleton] at hi
          rcases Nat.lt_or_ge i init.length with h1 | h1
          · rw [List.getElem?_append_left h1, List.getElem?_append_left h1]
          · have h3 : i = init.length := by omega
            subst h3
            simp [postStatus_title, appendSubstep_title]
        · intro hlen
          exfalso
          rw [hres, hcat] at hlen
          simp at hlen

/-- C5 (witness): the append-only/supersession invariant at a concrete event
and state: the "Round 1" event on the running "Investigation Phase" step
keeps position 0 (title preserved), grows the list by one, marks the
superseded step `completed`, and gives the new step no substeps. -/
theorem steps_append_only_and_supersede_witness :
    runningStepState.steps.length ≤
      (processStream retryRoundMsg runningStepState).steps.length ∧
    ((processStream retryRoundMsg runningStepState).steps[0]?).map StepData.title =
      (runningStepState.steps[0]?).map StepData.title ∧
    ((processStream retryRoundMsg runningStepState).steps[0]?).map StepData.status =
      some StepStatus.completed ∧
    ((processStream retryRoundMsg runningStepState).steps.getLast?).map
      StepData.substeps = some ([] : List SubStep) := by
  obtain ⟨h1, h2, h3⟩ := steps_append_only_and_supersede retryRoundMsg runningStepState
  obtain ⟨h4, h5⟩ := h3 (by decide) [] ⟨"Investigation Phase", .running, [], true⟩ (by decide)
  exact ⟨h1, h2 0 (by decide), h4, h5⟩

/-- C6: when the Transcript Builder processes an `analysis_completed` event
carrying a (non-empty) `final_analysis`, exactly one new ChatMessage with
role `assistant` is appended, its content contains the `final_analysis`
text, and no other message is produced for that event. -/
theorem analysis_completed_single_assistant_message (now : Nat)
    (update : WorkflowUpdate) (s : ChatState) (t : String)
    (htype : update.type = "analysis_completed")
    (hfa : update.final_analysis = some t) (hne : t ≠ "") :
    ∃ m, (handleWorkflowUpdate now update s).messages = s.messages ++ [m] ∧
      m.type = MsgRole.assistant ∧ ∃ pre post, m.content = pre ++ t ++ post := by
  have hbeq : (t == "") = false := beq_eq_false_iff_ne.mpr hne
  have hA : analysisHeader ≠ "" := by decide
  have hP2 : (analysisHeader ++ toString ((update.completed_categories.getD []).length)) ++
      analysisSeparator ≠ "" :=
    append_ne_empty_left _ _ (append_ne_empty_left _ _ hA)
  have hbase : ((analysisHeader ++ toString ((update.completed_categories.getD []).length)) ++
      analysisSeparator) ++ t ≠ "" := append_ne_empty_left _ _ hP2
  have hbaseb : (((analysisHeader ++
      toString ((update.completed_categories.getD []).length)) ++
      analysisSeparator) ++ t == "") = false := beq_eq_false_iff_ne.mpr hbase
  rcases hdq : update.deposition_questions with _ | d
  · simp only [handleWorkflowUpdate, htype, hfa, hbeq, hdq, Bool.false_eq_true, if_false,
      hbaseb]
    exact ⟨_, rfl, rfl,
      (analysisHeader ++ toString ((update.completed_categories.getD []).length)) ++
        analysisSeparator, "", (String.append_empty _).symm⟩
  · cases d with
    | str dqs =>
      by_cases hdqe : (dqs == "") = true
      · simp only [handleWorkflowUpdate, htype, hfa, hbeq, hdq, hdqe, if_true,
          Bool.false_eq_true, if_false, hbaseb]
        exact ⟨_, rfl, rfl,
          (analysisHeader ++ toString ((update.completed_categories.getD []).length)) ++
            analysisSeparator, "", (String.append_empty _).symm⟩
      · have hdqe' : (dqs == "") = false := by simpa using hdqe
        have hfullb : ((((analysisHeader ++
            toString ((update.completed_categories.getD []).length)) ++
            analysisSeparator) ++ t) ++ depositionSeparator ++ dqs == "") = false :=
          beq_eq_false_iff_ne.mpr
            (append_ne_empty_left _ _ (append_ne_empty_left _ _ hbase))
        simp only [handleWorkflowUpdate, htype, hfa, hbeq, hdq, hdqe',
          Bool.false_eq_true, if_false, hfullb]
        exact ⟨_, rfl, rfl,
          (analysisHeader ++ toString ((update.completed_categories.getD []).length)) ++
            analysisSeparator, depositionSeparator ++ dqs,
          String.append_assoc _ _ _⟩
    | obj dqs =>
      have hfullb : ((((analysisHeader ++
          toString ((update.completed_categories.getD []).length)) ++
          analysisSeparator) ++ t) ++ depositionSeparator ++ dqs == "") = false :=
        beq_eq_false_iff_ne.mpr
          (append_ne_empty_left _ _ (append_ne_empty_left _ _ hbase))
      simp only [handleWorkflowUpdate, htype, hfa, hbeq, hdq,
        Bool.false_eq_true, if_false, hfullb]
      exact ⟨_, rfl, rfl,
        (analysisHeader ++ toString ((update.completed_categories.getD []).length)) ++
          analysisSeparator, depositionSeparator ++ dqs,
        String.append_assoc _ _ _⟩

/-- The concrete `analysis_completed` event used as the C6 witness input. -/
def completedUpdate : WorkflowUpdate :=
  { type := "analysis_completed"
    final_analysis := some "The defendant breached the maintenance contract."
    completed_categories := some [⟨"Damages", "", true, none⟩,
      ⟨"Liability", "", true, none⟩, ⟨"Timeline", "", true, none⟩] }

/-- C6 (witness): the `analysis_completed` theorem at a concrete event with a
three-category payload and non-empty final analysis, against the empty
transcript. -/
theorem analysis_completed_single_assistant_message_witness :
    ∃ m, (handleWorkflowUpdate 5 completedUpdate ⟨[], none⟩).messages =
        ([] : List ChatMessage) ++ [m] ∧
      m.type = MsgRole.assistant ∧
      ∃ pre post, m.content =
        pre ++ "The defendant breached the maintenance contract." ++ post :=
  analysis_completed_single_assistant_message 5 completedUpdate ⟨[], none⟩
    "The defendant breached the maintenance contract." rfl rfl (by decide)

/-- C7: a `progress_update` whose `message` is absent or empty appends no
ChatMessage; a `progress_update` with a non-empty `message` appends exactly
one `system` ChatMessage whose content is that message; an event with an
unrecognized type and no `message` field appends no ChatMessage. -/
theorem progress_update_message_policy (now : Nat) (update : WorkflowUpdate)
    (s : ChatState) :
    (update.type = "progress_update" →
      (update.message = none ∨ update.message = some "") →
      (handleWorkflowUpdate now update s).messages = s.messages) ∧
    (∀ t, update.type = "progress_update" → update.message = some t → t ≠ "" →
      ∃ m, (handleWorkflowUpdate now update s).messages = s.messages ++ [m] ∧
        m.type = MsgRole.system ∧ m.content = t) ∧
    (update.type ∉ (["plan_generated", "feedback_requested", "category_completed",
        "deposition_generated", "analysis_completed", "progress_update", "error"] :
        List String) →
      update.message = none →
      (handleWorkflowUpdate now update s).messages = s.messages) := by
  refine ⟨?_, ?_, ?_⟩
  · intro htype hmsg
    rcases hmsg with h | h <;>
      simp [handleWorkflowUpdate, htype, h, jsTruthyStr]
  · intro t htype hmsg hne
    have hbeq : (t == "") = false := beq_eq_false_iff_ne.mpr hne
    have htr : jsTruthyStr (some t) = true := by
      simp [jsTruthyStr, bne_iff_ne, hne]
    simp only [handleWorkflowUpdate, htype, hmsg, htr, if_true, hbeq,
      Bool.false_eq_true, if_false]
    exact ⟨_, rfl, rfl, rfl⟩
  · intro hnot hmsg
    obtain ⟨h1, h2, h3, h4, h5, h6, h7⟩ :
        update.type ≠ "plan_generated" ∧ update.type ≠ "feedback_requested" ∧
        update.type ≠ "category_completed" ∧ update.type ≠ "deposition_generated" ∧
        update.type ≠ "analysis_completed" ∧ update.type ≠ "progress_update" ∧
        update.type ≠ "error" := by
      simpa using hnot
    simp only [handleWorkflowUpdate]
    split <;> simp_all [jsTruthyStr]

/-- C7 (witness): a concrete `progress_update` without a message leaves the
transcript unchanged, one with the message "Searching precedent databases"
appends exactly that system message, and an unrecognized `heartbeat` event
without a message leaves the transcript unchanged. -/
theorem progress_update_message_policy_witness :
    (handleWorkflowUpdate 7 { type := "progress_update" } ⟨[], none⟩).messages =
      ([] : List ChatMessage) ∧
    (∃ m, (handleWorkflowUpdate 7
        { type := "progress_update", message := some "Searching precedent databases" }
        ⟨[], none⟩).messages = ([] : List ChatMessage) ++ [m] ∧
      m.type = MsgRole.system ∧ m.content = "Searching precedent databases") ∧
    (handleWorkflowUpdate 7 { type := "heartbeat" } ⟨[], none⟩).messages =
      ([] : List ChatMessage) :=
  ⟨(progress_update_message_policy 7 { type := "progress_update" } ⟨[], none⟩).1
      rfl (Or.inl rfl),
   (progress_update_message_policy 7
      { type := "progress_update", message := some "Searching precedent databases" }
      ⟨[], none⟩).2.1 "Searching precedent databases" rfl rfl (by decide),
   (progress_update_message_policy 7 { type := "heartbeat" } ⟨[], none⟩).2.2
      (by decide) rfl⟩

/-- The concrete category list `[A, B, C]` of the C8 instance. -/
def catsABC : List Category :=
  [⟨"A", "", true, none⟩, ⟨"B", "", true, none⟩, ⟨"C", "", true, none⟩]

/-- Progress rows with `A`, `B` completed and `C` pending. -/
def progABC : List CategoryProgressRow :=
  [⟨"1", "A", "completed", none, 0, none, none⟩,
   ⟨"2", "B", "completed", none, 0, none, none⟩,
   ⟨"3", "C", "pending", none, 0, none, none⟩]

/-- C8: for every list of categories and of CategoryProgress rows, the
derived progress percentage equals (number of rows with status completed) /
(number of categories) * 100, and equals 0 when the category list is empty;
for categories `[A, B, C]` with `A`, `B` completed and `C` pending, the
percentage is 66.67 up to rounding and the completed count is 2. -/
theorem progress_percentage_derivation :
    (∀ (categories : List Category) (progress : List CategoryProgressRow),
      categories ≠ [] →
      progressPercentage categories progress =
        ((progress.countP fun p => p.status == "completed" : Nat) : ℚ) /
          (categories.length : ℚ) * 100) ∧
    (∀ progress, progressPercentage [] progress = 0) ∧
    |progressPercentage catsABC progABC - 6667 / 100| < 1 / 100 ∧
    completedCount progABC = 2 := by
  refine ⟨?_, ?_, ?_, by decide⟩
  · intro categories progress hne
    have hlen : 0 < categories.length := List.length_pos.mpr hne
    simp [progressPercentage, completedCount, hlen, List.countP_eq_length_filter]
  · intro progress
    simp [progressPercentage]
  · have hc : completedCount progABC = 2 := by decide
    have h : progressPercentage catsABC progABC = 200 / 3 := by
      simp [progressPercentage, catsABC, hc]
      norm_num
    rw [h]
    norm_num [abs_lt]

/-- C8 (witness): the percentage formula at the concrete `[A, B, C]`
instance. -/
theorem progress_percentage_derivation_witness :
    progressPercentage catsABC progABC =
      ((progABC.countP fun p => p.status == "completed" : Nat) : ℚ) /
        (catsABC.length : ℚ) * 100 :=
  progress_percentage_derivation.1 catsABC progABC (by decide)

/-- C9: submitting feedback with empty or whitespace-only text is rejected
client-side (no feedback command is constructed or sent, and the send
handler emits no action at all); for every non-empty user-submitted text, a
ChatMessage with role `user` is appended synchronously, at the head of the
action trace, before any network call is awaited. -/
theorem feedback_rejected_empty_user_message_first (feedbackText input : String)
    (now : Nat) (caseId : String) (analysisId : Option String) :
    (strTrim feedbackText = "" → handleSubmitFeedback feedbackText = none) ∧
    (strTrim input = "" → handleSendMessage now caseId analysisId input = []) ∧
    (strTrim input ≠ "" →
      ∃ m rest, handleSendMessage now caseId analysisId input =
          ChatAction.appendMessage m :: rest ∧
        m.type = MsgRole.user ∧ m.content = input) := by
  refine ⟨?_, ?_, ?_⟩
  · intro h
    simp [handleSubmitFeedback, h]
  · intro h
    simp [handleSendMessage, h]
  · intro h
    have hb : (strTrim input == "") = false := beq_eq_false_iff_ne.mpr h
    simp only [handleSendMessage, hb, Bool.false_eq_true, if_false]
    exact ⟨_, _, rfl, rfl, rfl⟩

/-- C9 (witness): whitespace-only feedback is rejected and sends nothing,
while the non-empty input "Focus on damages" puts the user message at the
head of the trace. -/
theorem feedback_rejected_empty_user_message_first_witness :
    handleSubmitFeedback "   " = none ∧
    handleSendMessage 3 "case_1" (some "analysis_1") "   " = [] ∧
    (∃ m rest, handleSendMessage 3 "case_1" (some "analysis_1") "Focus on damages" =
        ChatAction.appendMessage m :: rest ∧
      m.type = MsgRole.user ∧ m.content = "Focus on damages") :=
  ⟨(feedback_rejected_empty_user_message_first "   " "   " 3 "case_1"
      (some "analysis_1")).1 (by decide),
   (feedback_rejected_empty_user_message_first "   " "   " 3 "case_1"
      (some "analysis_1")).2.1 (by decide),
   (feedback_rejected_empty_user_message_first "   " "Focus on damages" 3 "case_1"
      (some "analysis_1")).2.2 (by decide)⟩

/-- C10: the category-driven ThinkingSteps overall-progress division is not
guarded against an empty list: for zero categories the computed value is the
JS `NaN` (from `0 / 0`), not the number `0`. -/
theorem thinking_steps_empty_progress_nan :
    overallProgress [] = JSNum.nan ∧ JSNum.nan ≠ JSNum.num 0 := by
  decide

end LegalDiscovery
